import Mathlib

/-!
Verification of the typed-field parsing framework of the arduino-dsmr
repository (src/dsmr/fields.h): the field-type strategies StringField,
TimestampField, FixedField, TimestampedFixedField, IntField and RawField,
and the field catalog produced by DEFINE_FIELD.

The primitive scanners (StringParser::parse_string, NumParser::parse), the
ObisId type and concat_hack live in parser.h / util.h, which are not part
of the sources under verification; they are modelled from the specification
and marked as such in their doc comments.  Byte spans are modelled as
List Char, machine integers as Nat (the specification describes unbounded
decimal values; no overflow behaviour is specified).
-/

/-- Error kinds carried in a failure result (spec section 7). -/
inductive ErrKind : Type where
  | InvalidLength : ErrKind
  | InvalidFormat : ErrKind
  | UnitMismatch : ErrKind
deriving DecidableEq, Repr

/-- A parse failure: the error kind plus the offset of the failing sub-span
inside the input span. -/
structure ParseError : Type where
  kind : ErrKind
  pos : Nat
deriving DecidableEq, Repr

/-- The tagged result of a parse: Success carries the cursor (offset just
after the consumed token) plus, for the primitive scanners, the scanned
value; Failure carries the error.  Mirrors ParseResult of the C++ code:
err / result / next. -/
inductive PResult (A : Type) : Type where
  | ok : A → Nat → PResult A
  | fail : ParseError → PResult A
deriving DecidableEq, Repr

/-- True exactly when the result is a success. -/
def PResult.isOk {A : Type} : PResult A → Bool
  | PResult.ok _ _ => true
  | PResult.fail _ => false

/-- Decimal value of a digit run, most significant digit first. -/
def digitsToNat (ds : List Char) : Nat :=
  ds.foldl (fun a c => 10 * a + (c.toNat - 48)) 0

/-- Modelled from the spec: StringParser::parse_string from parser.h (not
under the verified sources).  The bounded string scanner accepts any
unwrapped token of length in [minl, maxl], returning the text unchanged and
the cursor after it; outside the bounds it fails with InvalidLength
(spec sections 4.2 and 7). -/
def StringParser.parse_string (minl maxl : Nat) (s : List Char) : PResult (List Char) :=
  if minl ≤ s.length ∧ s.length ≤ maxl then
    PResult.ok s s.length
  else
    PResult.fail (ParseError.mk ErrKind.InvalidLength 0)

/-- Trailing-unit check shared by the numeric scanner: after the digits, a
nonempty expected unit label must appear after a star separator and reach
the end of the span; otherwise the failure is UnitMismatch at the offset
where the suffix begins (spec sections 4.4 and 7). -/
def unitTail (unit : List Char) (v : Nat) (off next : Nat) (rest : List Char) : PResult Nat :=
  if unit.isEmpty then
    if rest.isEmpty then PResult.ok v next else PResult.fail (ParseError.mk ErrKind.UnitMismatch off)
  else
    if rest = '*' :: unit then PResult.ok v next else PResult.fail (ParseError.mk ErrKind.UnitMismatch off)

/-- Fraction stage and unit stage of the numeric scanner, after a nonempty
integer digit run ds has been consumed and r1 is the residue. -/
def NumParser.parseAfterInt (maxDec : Nat) (unit ds r1 : List Char) (slen : Nat) : PResult Nat :=
  if r1.head? = some '.' then
    if maxDec = 0 then
      PResult.fail (ParseError.mk ErrKind.InvalidFormat ds.length)
    else
      if (r1.tail.takeWhile Char.isDigit).isEmpty then
        PResult.fail (ParseError.mk ErrKind.InvalidFormat (ds.length + 1))
      else
        if maxDec < (r1.tail.takeWhile Char.isDigit).length then
          PResult.fail (ParseError.mk ErrKind.InvalidFormat (ds.length + 1))
        else
          unitTail unit
            (digitsToNat (ds ++ r1.tail.takeWhile Char.isDigit) * 10 ^ (maxDec - (r1.tail.takeWhile Char.isDigit).length))
            (slen - (r1.tail.dropWhile Char.isDigit).length) slen
            (r1.tail.dropWhile Char.isDigit)
  else
    unitTail unit (digitsToNat ds * 10 ^ maxDec) ds.length slen r1

/-- Modelled from the spec: NumParser::parse from parser.h (not under the
verified sources).  Decodes a decimal token with at most maxDec fraction
digits followed by the expected trailing unit label, yielding the value
scaled to exactly maxDec decimals (spec sections 4.4 and 4.6): an integer
digit run, an optional dot with one to maxDec fraction digits, then the
unit suffix.  A malformed number fails with InvalidFormat, a wrong unit
suffix with UnitMismatch (spec section 7). -/
def NumParser.parse (maxDec : Nat) (unit s : List Char) : PResult Nat :=
  if (s.takeWhile Char.isDigit).isEmpty then
    PResult.fail (ParseError.mk ErrKind.InvalidFormat 0)
  else
    NumParser.parseAfterInt maxDec unit (s.takeWhile Char.isDigit) (s.dropWhile Char.isDigit) s.length

/-- Modelled from the spec: concat_hack from util.h (not under the verified
sources), the helper RawField::parse uses to store the token into the
record's string slot.  The spec fixes the net effect of a RawField parse
(it "captures the entire token verbatim" and the "stored value equals the
input bytes exactly", sections 4.7 and 8, with no precondition on the prior
slot contents), so the model replaces the slot contents with the given
bytes. -/
def concat_hack (cur app : List Char) : List Char :=
  app

/-- A catalog record with a String storage slot, as laid out by
DEFINE_FIELD: the slot plus the presence flag (fields.h lines 225-234). -/
structure StrRecord : Type where
  val : List Char
  present : Bool
deriving DecidableEq, Repr

/-- A catalog record with a FixedValue slot: the scaled integer magnitude
(FixedValue, fields.h lines 94-101) plus the presence flag. -/
structure FixedRecord : Type where
  value : Nat
  present : Bool
deriving DecidableEq, Repr

/-- A catalog record with a TimestampedFixedValue slot: the scaled integer
magnitude plus the timestamp string (fields.h lines 138-141) plus the
presence flag. -/
structure TFRecord : Type where
  value : Nat
  timestamp : List Char
  present : Bool
deriving DecidableEq, Repr

/-- A catalog record with a plain integer slot plus the presence flag. -/
structure IntRecord : Type where
  val : Nat
  present : Bool
deriving DecidableEq, Repr

/-- A freshly constructed String record: DEFINE_FIELD initializes the
presence flag to false (fields.h line 229); the slot is an empty string. -/
def initStrRecord : StrRecord :=
  StrRecord.mk [] false

/-- A freshly constructed FixedValue record: presence flag false per
DEFINE_FIELD; the numeric slot is modelled as zero (the source leaves it
default-initialized). -/
def initFixedRecord : FixedRecord :=
  FixedRecord.mk 0 false

/-- A freshly constructed TimestampedFixedValue record: presence flag false
per DEFINE_FIELD. -/
def initTFRecord : TFRecord :=
  TFRecord.mk 0 [] false

/-- A freshly constructed integer record: presence flag false per
DEFINE_FIELD. -/
def initIntRecord : IntRecord :=
  IntRecord.mk 0 false

/-- StringField::parse (fields.h lines 69-75): run the bounded string
scanner; on success store the scanned text in the record's slot; return the
scanner's result either way. -/
def StringField.parse (minl maxl : Nat) (r : StrRecord) (s : List Char) : PResult Unit × StrRecord :=
  match StringParser.parse_string minl maxl s with
  | PResult.ok str n => (PResult.ok () n, StrRecord.mk str r.present)
  | PResult.fail e => (PResult.fail e, r)

/-- TimestampField::parse (fields.h lines 84-87): a StringField specialized
to exactly 13 characters. -/
def TimestampField.parse (r : StrRecord) (s : List Char) : PResult Unit × StrRecord :=
  StringField.parse 13 13 r s

/-- FixedField::parse (fields.h lines 113-132): try the float form (three
decimals, large unit); on success store and return.  Otherwise try the int
form (zero decimals, small unit); on success store and return.  If neither
matches, return the float attempt's error result. -/
def FixedField.parse (u iu : List Char) (r : FixedRecord) (s : List Char) : PResult Unit × FixedRecord :=
  match NumParser.parse 3 u s with
  | PResult.ok v n => (PResult.ok () n, FixedRecord.mk v r.present)
  | PResult.fail ef =>
    match NumParser.parse 0 iu s with
    | PResult.ok v n => (PResult.ok () n, FixedRecord.mk v r.present)
    | PResult.fail _ => (PResult.fail ef, r)

/-- Re-base a result produced on the remaining span at offset n of the full
span, so cursors and failing positions refer to the full span (the C++ code
passes raw pointers, which are absolute). -/
def shiftResult (n : Nat) : PResult Unit → PResult Unit
  | PResult.ok v m => PResult.ok v (n + m)
  | PResult.fail e => PResult.fail (ParseError.mk e.kind (n + e.pos))

/-- TimestampedFixedField::parse (fields.h lines 148-159): first scan a
13-character timestamp; on failure return that error.  Otherwise store the
timestamp into the record's slot, then run FixedField::parse on the
remaining span, which stores the numeric value on success. -/
def TimestampedFixedField.parse (u iu : List Char) (r : TFRecord) (s : List Char) : PResult Unit × TFRecord :=
  match StringParser.parse_string 13 13 s with
  | PResult.fail e => (PResult.fail e, r)
  | PResult.ok ts n =>
    match FixedField.parse u iu (FixedRecord.mk r.value r.present) (s.drop n) with
    | (res, fr) => (shiftResult n res, TFRecord.mk fr.value ts fr.present)

/-- IntField::parse (fields.h lines 166-172): a single-representation
numeric field with zero decimals and one declared unit. -/
def IntField.parse (u : List Char) (r : IntRecord) (s : List Char) : PResult Unit × IntRecord :=
  match NumParser.parse 0 u s with
  | PResult.ok v n => (PResult.ok () n, IntRecord.mk v r.present)
  | PResult.fail e => (PResult.fail e, r)

/-- RawField::parse (fields.h lines 182-187): store the token via
concat_hack without any parsing and succeed with the cursor at the end of
the span. -/
def RawField.parse (r : StrRecord) (s : List Char) : PResult Unit × StrRecord :=
  (PResult.ok () s.length, StrRecord.mk (concat_hack r.val s) r.present)

/-- The unit label table (struct units, fields.h lines 193-218), as
character lists. -/
def units.none : List Char := []

/-- Unit label kWh (fields.h line 203). -/
def units.kWh : List Char := ['k', 'W', 'h']

/-- Unit label Wh (fields.h line 204). -/
def units.Wh : List Char := ['W', 'h']

/-- Unit label kW (fields.h line 205). -/
def units.kW : List Char := ['k', 'W']

/-- Unit label W (fields.h line 206). -/
def units.W : List Char := ['W']

/-- Unit label V (fields.h line 207). -/
def units.V : List Char := ['V']

/-- Unit label mV (fields.h line 208). -/
def units.mV : List Char := ['m', 'V']

/-- Unit label A (fields.h line 209). -/
def units.A : List Char := ['A']

/-- Unit label mA (fields.h line 210). -/
def units.mA : List Char := ['m', 'A']

/-- Unit label m3 (fields.h line 211). -/
def units.m3 : List Char := ['m', '3']

/-- Unit label dm3 (fields.h line 212). -/
def units.dm3 : List Char := ['d', 'm', '3']

/-- Unit label GJ (fields.h line 213). -/
def units.GJ : List Char := ['G', 'J']

/-- Unit label MJ (fields.h line 214). -/
def units.MJ : List Char := ['M', 'J']

/-- Unit label kvar (fields.h line 215). -/
def units.kvar : List Char := ['k', 'v', 'a', 'r']

/-- Unit label kvarh (fields.h line 216). -/
def units.kvarh : List Char := ['k', 'v', 'a', 'r', 'h']

/-- Unit label Hz (fields.h line 217). -/
def units.Hz : List Char := ['H', 'z']

/-- Modelled from the spec: the ObisId collaborator type from util.h (not
under the verified sources): a six-component identifier, equality
comparable (spec section 3).  Catalog entries written with five explicit
components leave the trailing component at 255, the value the all-255
sentinel convention shows for unspecified components. -/
structure ObisId : Type where
  c1 : Nat
  c2 : Nat
  c3 : Nat
  c4 : Nat
  c5 : Nat
  c6 : Nat
deriving DecidableEq, Repr

/-- The sentinel identifier whose six components are all 255, used only by
the identification entry (spec section 3). -/
def ObisId.sentinel : ObisId :=
  ObisId.mk 255 255 255 255 255 255

/-- The six field-type strategies a catalog entry can bind (spec
section 2). -/
inductive FieldKind : Type where
  | stringK : FieldKind
  | timestampK : FieldKind
  | fixedK : FieldKind
  | timestampedFixedK : FieldKind
  | intK : FieldKind
  | rawK : FieldKind
deriving DecidableEq, Repr

/-- One catalog record as produced by DEFINE_FIELD (fields.h lines
225-234): the field name, its OBIS id, the bound strategy, the unit
template arguments (for Fixed, TimestampedFixed and Int strategies) and the
length arguments (for String strategies). -/
structure CatalogEntry : Type where
  name : String
  id : ObisId
  kind : FieldKind
  unitArgs : List (List Char)
  lenArgs : List Nat
deriving DecidableEq, Repr

/-- The field catalog: the DEFINE_FIELD invocations of fields.h lines
238-328, in source order. -/
def fieldCatalog : List CatalogEntry :=
  [CatalogEntry.mk "identification" (ObisId.mk 255 255 255 255 255 255) FieldKind.rawK [] [],
   CatalogEntry.mk "timestamp" (ObisId.mk 0 0 1 0 0 255) FieldKind.timestampK [] [],
   CatalogEntry.mk "equipment_id" (ObisId.mk 0 0 96 1 0 255) FieldKind.stringK [] [0, 96],
   CatalogEntry.mk "energy_delivered_lux" (ObisId.mk 1 0 1 8 0 255) FieldKind.fixedK [units.kWh, units.Wh] [],
   CatalogEntry.mk "energy_delivered_tariff1" (ObisId.mk 1 0 1 8 1 255) FieldKind.fixedK [units.kWh, units.Wh] [],
   CatalogEntry.mk "energy_delivered_tariff2" (ObisId.mk 1 0 1 8 2 255) FieldKind.fixedK [units.kWh, units.Wh] [],
   CatalogEntry.mk "energy_returned_lux" (ObisId.mk 1 0 2 8 0 255) FieldKind.fixedK [units.kWh, units.Wh] [],
   CatalogEntry.mk "energy_returned_tariff1" (ObisId.mk 1 0 2 8 1 255) FieldKind.fixedK [units.kWh, units.Wh] [],
   CatalogEntry.mk "energy_returned_tariff2" (ObisId.mk 1 0 2 8 2 255) FieldKind.fixedK [units.kWh, units.Wh] [],
   CatalogEntry.mk "total_imported_energy" (ObisId.mk 1 0 3 8 0 255) FieldKind.fixedK [units.kvarh, units.kvarh] [],
   CatalogEntry.mk "total_exported_energy" (ObisId.mk 1 0 4 8 0 255) FieldKind.fixedK [units.kvarh, units.kvarh] [],
   CatalogEntry.mk "electricity_tariff" (ObisId.mk 0 0 96 14 0 255) FieldKind.stringK [] [4, 4],
   CatalogEntry.mk "power_delivered" (ObisId.mk 1 0 1 7 0 255) FieldKind.fixedK [units.kW, units.W] [],
   CatalogEntry.mk "power_returned" (ObisId.mk 1 0 2 7 0 255) FieldKind.fixedK [units.kW, units.W] [],
   CatalogEntry.mk "electricity_threshold" (ObisId.mk 0 0 17 0 0 255) FieldKind.fixedK [units.kW, units.W] [],
   CatalogEntry.mk "message_long" (ObisId.mk 0 0 96 13 0 255) FieldKind.stringK [] [0, 2048],
   CatalogEntry.mk "voltage_l1" (ObisId.mk 1 0 32 7 0 255) FieldKind.fixedK [units.V, units.mV] [],
   CatalogEntry.mk "voltage_l2" (ObisId.mk 1 0 52 7 0 255) FieldKind.fixedK [units.V, units.mV] [],
   CatalogEntry.mk "voltage_l3" (ObisId.mk 1 0 72 7 0 255) FieldKind.fixedK [units.V, units.mV] [],
   CatalogEntry.mk "current_l1" (ObisId.mk 1 0 31 7 0 255) FieldKind.fixedK [units.A, units.mA] [],
   CatalogEntry.mk "current_l2" (ObisId.mk 1 0 51 7 0 255) FieldKind.fixedK [units.A, units.mA] [],
   CatalogEntry.mk "current_l3" (ObisId.mk 1 0 71 7 0 255) FieldKind.fixedK [units.A, units.mA] [],
   CatalogEntry.mk "energy_combined_total" (ObisId.mk 1 0 15 8 0 255) FieldKind.fixedK [units.kWh, units.Wh] [],
   CatalogEntry.mk "maximum_current_l1" (ObisId.mk 1 0 31 4 0 255) FieldKind.fixedK [units.A, units.mA] [],
   CatalogEntry.mk "maximum_current_l2" (ObisId.mk 1 0 51 4 0 255) FieldKind.fixedK [units.A, units.mA] [],
   CatalogEntry.mk "maximum_current_l3" (ObisId.mk 1 0 71 4 0 255) FieldKind.fixedK [units.A, units.mA] [],
   CatalogEntry.mk "frequency" (ObisId.mk 1 0 14 7 0 255) FieldKind.fixedK [units.Hz] [],
   CatalogEntry.mk "power_factor" (ObisId.mk 1 0 13 7 0 255) FieldKind.rawK [] [],
   CatalogEntry.mk "power_factor_l1" (ObisId.mk 1 0 33 7 0 255) FieldKind.rawK [] [],
   CatalogEntry.mk "power_factor_l2" (ObisId.mk 1 0 53 7 0 255) FieldKind.rawK [] [],
   CatalogEntry.mk "power_factor_l3" (ObisId.mk 1 0 73 7 0 255) FieldKind.rawK [] [],
   CatalogEntry.mk "monthly_datas" (ObisId.mk 0 0 98 1 0 255) FieldKind.stringK [] [0, 2048],
   CatalogEntry.mk "COSEM_logical_device_name" (ObisId.mk 0 0 42 0 0 255) FieldKind.stringK [] [0, 64],
   CatalogEntry.mk "breaker_status" (ObisId.mk 0 0 96 50 68 255) FieldKind.stringK [] [0, 2048]]

/-- Spec-side description of the float-form encoding (spec sections 4.4 and
8, used to state claim C1): the token is a digit run, optionally a dot
followed by one to three fraction digits, then a star and the declared
large unit; the stored integer is the decimal value rescaled by 1000. -/
def SpecFloatForm (u s : List Char) (v : Nat) : Prop :=
  (∃ ds : List Char, ds ≠ [] ∧ ds.all Char.isDigit = true ∧ s = ds ++ '*' :: u ∧
    v = digitsToNat ds * 1000) ∨
  (∃ ds fs : List Char, ds ≠ [] ∧ ds.all Char.isDigit = true ∧ fs ≠ [] ∧
    fs.all Char.isDigit = true ∧ fs.length ≤ 3 ∧ s = ds ++ '.' :: (fs ++ '*' :: u) ∧
    v = (digitsToNat ds * 10 ^ fs.length + digitsToNat fs) * 10 ^ (3 - fs.length))

/-- Spec-side description of the integer-form encoding (spec sections 4.4
and 8, used to state claim C1): a digit run with zero fraction digits, then
a star and the declared small unit; the stored integer is the literal
value, unscaled. -/
def SpecIntForm (iu s : List Char) (v : Nat) : Prop :=
  ∃ ds : List Char, ds ≠ [] ∧ ds.all Char.isDigit = true ∧ s = ds ++ '*' :: iu ∧
    v = digitsToNat ds

/-- Every element kept by takeWhile satisfies the predicate. -/
theorem all_takeWhile_self (p : Char → Bool) (l : List Char) :
    (l.takeWhile p).all p = true := by
  induction l with
  | nil => rfl
  | cons c t ih =>
    by_cases h : p c = true
    · simp [List.takeWhile_cons, h, ih]
    · simp [List.takeWhile_cons, h]

/-- takeWhile applied to a run of satisfying elements followed by a
non-satisfying one returns exactly the run. -/
theorem takeWhile_run (p : Char → Bool) (ds : List Char) (c : Char) (t : List Char)
    (hds : ds.all p = true) (hc : p c = false) :
    (ds ++ c :: t).takeWhile p = ds := by
  induction ds with
  | nil => simp [List.takeWhile_cons, hc]
  | cons d dt ih =>
    simp only [List.all_cons, Bool.and_eq_true] at hds
    simp [List.takeWhile_cons, hds.1, ih hds.2]

/-- dropWhile applied to a run of satisfying elements followed by a
non-satisfying one returns the residue from that element on. -/
theorem dropWhile_run (p : Char → Bool) (ds : List Char) (c : Char) (t : List Char)
    (hds : ds.all p = true) (hc : p c = false) :
    (ds ++ c :: t).dropWhile p = c :: t := by
  induction ds with
  | nil => simp [List.dropWhile_cons, hc]
  | cons d dt ih =>
    simp only [List.all_cons, Bool.and_eq_true] at hds
    simp [List.dropWhile_cons, hds.1, ih hds.2]

/-- Folding the digit accumulator from an arbitrary seed. -/
theorem digitsToNat_foldl_seed (b : List Char) (i : Nat) :
    b.foldl (fun a c => 10 * a + (c.toNat - 48)) i =
      i * 10 ^ b.length + digitsToNat b := by
  induction b generalizing i with
  | nil => simp [digitsToNat]
  | cons c t ih =>
    have hL : (c :: t).foldl (fun a c => 10 * a + (c.toNat - 48)) i =
        t.foldl (fun a c => 10 * a + (c.toNat - 48)) (10 * i + (c.toNat - 48)) := rfl
    have hD : digitsToNat (c :: t) =
        t.foldl (fun a c => 10 * a + (c.toNat - 48)) (10 * 0 + (c.toNat - 48)) := rfl
    rw [hL, hD, ih, ih]
    simp only [List.length_cons]
    ring

/-- The decimal value of a concatenation of digit runs. -/
theorem digitsToNat_append (a b : List Char) :
    digitsToNat (a ++ b) = digitsToNat a * 10 ^ b.length + digitsToNat b := by
  have h : digitsToNat (a ++ b) = b.foldl (fun a c => 10 * a + (c.toNat - 48)) (digitsToNat a) := by
    simp only [digitsToNat, List.foldl_append]
  rw [h, digitsToNat_foldl_seed]

/-- Soundness of the fraction-and-unit stage: a success of parseAfterInt
pins the residue to one of the two accepted tails and the value to the
correspondingly scaled integer, with the cursor at the end of the span. -/
theorem parseAfterInt_ok_shape (d : Nat) (u ds r1 : List Char) (slen v n : Nat)
    (hu : u ≠ []) (h : NumParser.parseAfterInt d u ds r1 slen = PResult.ok v n) :
    n = slen ∧
      ((r1 = '*' :: u ∧ v = digitsToNat ds * 10 ^ d) ∨
       (∃ fs : List Char, fs ≠ [] ∧ fs.all Char.isDigit = true ∧ fs.length ≤ d ∧ d ≠ 0 ∧
         r1 = '.' :: (fs ++ '*' :: u) ∧ v = digitsToNat (ds ++ fs) * 10 ^ (d - fs.length))) := by
  have huE : u.isEmpty = false := by simp [List.isEmpty_iff, hu]
  unfold NumParser.parseAfterInt at h
  split at h
  case isTrue hdot =>
    cases r1 with
    | nil => simp at hdot
    | cons a t =>
      simp only [List.head?_cons, Option.some.injEq] at hdot
      subst hdot
      simp only [List.tail_cons] at h
      split at h
      case isTrue => simp at h
      case isFalse hd0 =>
        split at h
        case isTrue => simp at h
        case isFalse hfsE =>
          split at h
          case isTrue => simp at h
          case isFalse hlen =>
            unfold unitTail at h
            split at h
            case isTrue hUE => rw [huE] at hUE; simp at hUE
            case isFalse =>
              split at h
              case isFalse => simp at h
              case isTrue hrest =>
                cases h
                have ht : t = t.takeWhile Char.isDigit ++ '*' :: u := by
                  have hsplit := List.takeWhile_append_dropWhile Char.isDigit t
                  rw [hrest] at hsplit
                  exact hsplit.symm
                refine ⟨rfl, Or.inr ⟨t.takeWhile Char.isDigit, ?_, all_takeWhile_self _ _,
                  Nat.le_of_not_lt hlen, hd0, ?_, rfl⟩⟩
                · simpa [List.isEmpty_iff] using hfsE
                · rw [← ht]
  case isFalse hdot =>
    unfold unitTail at h
    split at h
    case isTrue hUE => rw [huE] at hUE; simp at hUE
    case isFalse =>
      split at h
      case isFalse => simp at h
      case isTrue hrest =>
        cases h
        exact ⟨rfl, Or.inl ⟨hrest, rfl⟩⟩

/-- Completeness for the integer-shaped token: a digit run directly
followed by the star and the expected unit parses to the literal value
scaled to maxDec decimals. -/
theorem numParse_intshape (d : Nat) (u ds : List Char) (hu : u ≠ []) (hds : ds ≠ [])
    (hall : ds.all Char.isDigit = true) :
    NumParser.parse d u (ds ++ '*' :: u) =
      PResult.ok (digitsToNat ds * 10 ^ d) (ds ++ '*' :: u).length := by
  have htw : (ds ++ '*' :: u).takeWhile Char.isDigit = ds :=
    takeWhile_run Char.isDigit ds '*' u hall (by decide)
  have hdw : (ds ++ '*' :: u).dropWhile Char.isDigit = '*' :: u :=
    dropWhile_run Char.isDigit ds '*' u hall (by decide)
  have hdsE : ds.isEmpty = false := by simp [List.isEmpty_iff, hds]
  have huE : u.isEmpty = false := by simp [List.isEmpty_iff, hu]
  unfold NumParser.parse
  rw [htw, hdw, hdsE]
  simp only [Bool.false_eq_true, if_false]
  unfold NumParser.parseAfterInt
  rw [if_neg (by simp)]
  unfold unitTail
  rw [huE]
  simp

/-- Completeness for the float-shaped token: an integer digit run, a dot,
one to maxDec fraction digits, the star and the expected unit parse to the
combined digits scaled to maxDec decimals. -/
theorem numParse_floatshape (d : Nat) (u ds fs : List Char) (hu : u ≠ []) (hds : ds ≠ [])
    (hall : ds.all Char.isDigit = true) (hfs : fs ≠ []) (hfall : fs.all Char.isDigit = true)
    (hlen : fs.length ≤ d) (hd0 : d ≠ 0) :
    NumParser.parse d u (ds ++ '.' :: (fs ++ '*' :: u)) =
      PResult.ok (digitsToNat (ds ++ fs) * 10 ^ (d - fs.length))
        (ds ++ '.' :: (fs ++ '*' :: u)).length := by
  have htw : (ds ++ '.' :: (fs ++ '*' :: u)).takeWhile Char.isDigit = ds :=
    takeWhile_run Char.isDigit ds '.' (fs ++ '*' :: u) hall (by decide)
  have hdw : (ds ++ '.' :: (fs ++ '*' :: u)).dropWhile Char.isDigit = '.' :: (fs ++ '*' :: u) :=
    dropWhile_run Char.isDigit ds '.' (fs ++ '*' :: u) hall (by decide)
  have htw2 : (fs ++ '*' :: u).takeWhile Char.isDigit = fs :=
    takeWhile_run Char.isDigit fs '*' u hfall (by decide)
  have hdw2 : (fs ++ '*' :: u).dropWhile Char.isDigit = '*' :: u :=
    dropWhile_run Char.isDigit fs '*' u hfall (by decide)
  have hdsE : ds.isEmpty = false := by simp [List.isEmpty_iff, hds]
  have hfsE : fs.isEmpty = false := by simp [List.isEmpty_iff, hfs]
  have huE : u.isEmpty = false := by simp [List.isEmpty_iff, hu]
  unfold NumParser.parse
  rw [htw, hdw, hdsE]
  simp only [Bool.false_eq_true, if_false]
  unfold NumParser.parseAfterInt
  rw [if_pos (by simp), if_neg hd0, List.tail_cons, htw2, hdw2, hfsE]
  simp only [Bool.false_eq_true, if_false]
  rw [if_neg (by omega)]
  unfold unitTail
  rw [huE]
  simp

/-- Full characterization of a successful run of the numeric scanner with a
nonempty expected unit: it succeeds exactly on the integer-shaped and (when
maxDec is positive) float-shaped tokens, with the value scaled to maxDec
decimals and the cursor at the end of the span. -/
theorem numParse_ok_iff (d : Nat) (u s : List Char) (hu : u ≠ []) (v n : Nat) :
    NumParser.parse d u s = PResult.ok v n ↔
      (n = s.length ∧
        ((∃ ds : List Char, ds ≠ [] ∧ ds.all Char.isDigit = true ∧ s = ds ++ '*' :: u ∧
            v = digitsToNat ds * 10 ^ d) ∨
         (∃ ds fs : List Char, ds ≠ [] ∧ ds.all Char.isDigit = true ∧ fs ≠ [] ∧
            fs.all Char.isDigit = true ∧ fs.length ≤ d ∧ d ≠ 0 ∧
            s = ds ++ '.' :: (fs ++ '*' :: u) ∧
            v = digitsToNat (ds ++ fs) * 10 ^ (d - fs.length)))) := by
  constructor
  · intro h
    unfold NumParser.parse at h
    split at h
    case isTrue => simp at h
    case isFalse hE =>
      obtain ⟨hn, hcases⟩ := parseAfterInt_ok_shape d u _ _ _ v n hu h
      have hsplit := List.takeWhile_append_dropWhile Char.isDigit s
      have hdsne : s.takeWhile Char.isDigit ≠ [] := by
        simpa [List.isEmpty_iff] using hE
      refine ⟨by omega, ?_⟩
      rcases hcases with ⟨hrest, hv⟩ | ⟨fs, hfs, hfall, hlen, hd0, hrest, hv⟩
      · exact Or.inl ⟨s.takeWhile Char.isDigit, hdsne, all_takeWhile_self _ _,
          by rw [← hrest]; exact hsplit.symm, hv⟩
      · exact Or.inr ⟨s.takeWhile Char.isDigit, fs, hdsne, all_takeWhile_self _ _,
          hfs, hfall, hlen, hd0, by rw [← hrest]; exact hsplit.symm, hv⟩
  · rintro ⟨hn, ⟨ds, hds, hall, hs, hv⟩ | ⟨ds, fs, hds, hall, hfs, hfall, hlen, hd0, hs, hv⟩⟩
    · subst hs hv hn
      exact numParse_intshape d u ds hu hds hall
    · subst hs hv hn
      exact numParse_floatshape d u ds fs hu hds hall hfs hfall hlen hd0

/-- The float form of the spec is exactly a success of the numeric scanner
with three decimals and the large unit; the scanner's value is the decimal
value rescaled by 1000. -/
theorem specFloatForm_iff (u s : List Char) (hu : u ≠ []) (v : Nat) :
    SpecFloatForm u s v ↔ NumParser.parse 3 u s = PResult.ok v s.length := by
  rw [numParse_ok_iff 3 u s hu v s.length]
  constructor
  · rintro (⟨ds, hds, hall, hs, hv⟩ | ⟨ds, fs, hds, hall, hfs, hfall, hlen, hs, hv⟩)
    · exact ⟨rfl, Or.inl ⟨ds, hds, hall, hs, by rw [hv]; norm_num⟩⟩
    · refine ⟨rfl, Or.inr ⟨ds, fs, hds, hall, hfs, hfall, hlen, by norm_num, hs, ?_⟩⟩
      rw [hv, digitsToNat_append]
  · rintro ⟨-, ⟨ds, hds, hall, hs, hv⟩ | ⟨ds, fs, hds, hall, hfs, hfall, hlen, -, hs, hv⟩⟩
    · exact Or.inl ⟨ds, hds, hall, hs, by rw [hv]; norm_num⟩
    · refine Or.inr ⟨ds, fs, hds, hall, hfs, hfall, hlen, hs, ?_⟩
      rw [hv, digitsToNat_append]

/-- The integer form of the spec is exactly a success of the numeric
scanner with zero decimals and the small unit; the value is the literal
integer, unscaled. -/
theorem specIntForm_iff (iu s : List Char) (hiu : iu ≠ []) (v : Nat) :
    SpecIntForm iu s v ↔ NumParser.parse 0 iu s = PResult.ok v s.length := by
  rw [numParse_ok_iff 0 iu s hiu v s.length]
  constructor
  · rintro ⟨ds, hds, hall, hs, hv⟩
    exact ⟨rfl, Or.inl ⟨ds, hds, hall, hs, by rw [hv]; norm_num⟩⟩
  · rintro ⟨-, ⟨ds, hds, hall, hs, hv⟩ | ⟨ds, fs, -, -, -, -, -, hd0, -, -⟩⟩
    · exact ⟨ds, hds, hall, hs, by rw [hv]; norm_num⟩
    · exact absurd rfl hd0

/-- FixedField::parse on a successful float attempt stores its value. -/
theorem fixedParse_float (u iu : List Char) (r : FixedRecord) (s : List Char) (v n : Nat)
    (h : NumParser.parse 3 u s = PResult.ok v n) :
    FixedField.parse u iu r s = (PResult.ok () n, FixedRecord.mk v r.present) := by
  simp [FixedField.parse, h]

/-- FixedField::parse on a failed float attempt and successful int attempt
stores the int attempt's value. -/
theorem fixedParse_int (u iu : List Char) (r : FixedRecord) (s : List Char)
    (e : ParseError) (v n : Nat) (h3 : NumParser.parse 3 u s = PResult.fail e)
    (h0 : NumParser.parse 0 iu s = PResult.ok v n) :
    FixedField.parse u iu r s = (PResult.ok () n, FixedRecord.mk v r.present) := by
  simp [FixedField.parse, h3, h0]

/-- FixedField::parse when both attempts fail returns the float attempt's
error and leaves the record unchanged. -/
theorem fixedParse_fail (u iu : List Char) (r : FixedRecord) (s : List Char)
    (e3 e0 : ParseError) (h3 : NumParser.parse 3 u s = PResult.fail e3)
    (h0 : NumParser.parse 0 iu s = PResult.fail e0) :
    FixedField.parse u iu r s = (PResult.fail e3, r) := by
  simp [FixedField.parse, h3, h0]

/-- Claim C1: for every FixedField, parse accepts exactly two encodings: a
float-form token with at most three fraction digits followed by the
declared large unit, stored as the decimal value rescaled by 1000, or an
integer-form token with zero fraction digits followed by the declared small
unit, stored as the literal value unscaled (the integer form applying when
the float attempt fails).  In particular, for a field with units kWh/Wh,
parsing "000441.879*kWh" succeeds and stores 441879, and parsing
"000441879*Wh" succeeds and stores the same 441879. -/
theorem FixedField_parse_two_encodings (u iu : List Char) (hu : u ≠ []) (hiu : iu ≠ [])
    (r : FixedRecord) (s : List Char) (v : Nat) :
    (((FixedField.parse u iu r s).1.isOk = true ∧ (FixedField.parse u iu r s).2.value = v) ↔
      (SpecFloatForm u s v ∨ ((∀ w : Nat, ¬ SpecFloatForm u s w) ∧ SpecIntForm iu s v)))
    ∧ ((FixedField.parse units.kWh units.Wh r (String.toList "000441.879*kWh")).1.isOk = true ∧
        (FixedField.parse units.kWh units.Wh r (String.toList "000441.879*kWh")).2.value = 441879)
    ∧ ((FixedField.parse units.kWh units.Wh r (String.toList "000441879*Wh")).1.isOk = true ∧
        (FixedField.parse units.kWh units.Wh r (String.toList "000441879*Wh")).2.value = 441879) := by
  refine ⟨?_, ?_, ?_⟩
  · cases h3 : NumParser.parse 3 u s with
    | ok v3 n3 =>
      have hn3 : n3 = s.length := ((numParse_ok_iff 3 u s hu v3 n3).mp h3).1
      subst hn3
      have hF : SpecFloatForm u s v3 := (specFloatForm_iff u s hu v3).mpr h3
      rw [fixedParse_float u iu r s v3 s.length h3]
      constructor
      · rintro ⟨-, hval⟩
        simp only at hval
        exact Or.inl (hval ▸ hF)
      · rintro (hFv | ⟨hnone, -⟩)
        · have h2 := (specFloatForm_iff u s hu v).mp hFv
          rw [h3] at h2
          injection h2 with h2a h2b
          subst h2a
          exact ⟨rfl, rfl⟩
        · exact absurd hF (hnone v3)
    | fail e3 =>
      cases h0 : NumParser.parse 0 iu s with
      | ok v0 n0 =>
        have hn0 : n0 = s.length := ((numParse_ok_iff 0 iu s hiu v0 n0).mp h0).1
        subst hn0
        have hI : SpecIntForm iu s v0 := (specIntForm_iff iu s hiu v0).mpr h0
        have hnone : ∀ w : Nat, ¬ SpecFloatForm u s w := by
          intro w hw
          have h2 := (specFloatForm_iff u s hu w).mp hw
          rw [h3] at h2
          simp at h2
        rw [fixedParse_int u iu r s e3 v0 s.length h3 h0]
        constructor
        · rintro ⟨-, hval⟩
          simp only at hval
          exact Or.inr ⟨hnone, hval ▸ hI⟩
        · rintro (hFv | ⟨-, hIv⟩)
          · exact absurd hFv (hnone v)
          · have h2 := (specIntForm_iff iu s hiu v).mp hIv
            rw [h0] at h2
            injection h2 with h2a h2b
            subst h2a
            exact ⟨rfl, rfl⟩
      | fail e0 =>
        rw [fixedParse_fail u iu r s e3 e0 h3 h0]
        constructor
        · rintro ⟨hok, -⟩
          simp [PResult.isOk] at hok
        · rintro (hFv | ⟨-, hIv⟩)
          · have h2 := (specFloatForm_iff u s hu v).mp hFv
            rw [h3] at h2
            simp at h2
          · have h2 := (specIntForm_iff iu s hiu v).mp hIv
            rw [h0] at h2
            simp at h2
  · have h : NumParser.parse 3 units.kWh (String.toList "000441.879*kWh") =
        PResult.ok 441879 (String.toList "000441.879*kWh").length := by decide
    rw [fixedParse_float units.kWh units.Wh r _ 441879 _ h]
    exact ⟨rfl, rfl⟩
  · have h3c : NumParser.parse 3 units.kWh (String.toList "000441879*Wh") =
        PResult.fail (ParseError.mk ErrKind.UnitMismatch 9) := by decide
    have h0c : NumParser.parse 0 units.Wh (String.toList "000441879*Wh") =
        PResult.ok 441879 (String.toList "000441879*Wh").length := by decide
    rw [fixedParse_int units.kWh units.Wh r _ _ 441879 _ h3c h0c]
    exact ⟨rfl, rfl⟩

/-- Witness for claim C1: the two concrete encodings of 441.879 kWh both
parse and store 441879. -/
theorem FixedField_parse_two_encodings_witness :
    (FixedField.parse units.kWh units.Wh initFixedRecord (String.toList "000441.879*kWh")).2.value = 441879 ∧
    (FixedField.parse units.kWh units.Wh initFixedRecord (String.toList "000441879*Wh")).2.value = 441879 :=
  ⟨(FixedField_parse_two_encodings units.kWh units.Wh (by decide) (by decide)
      initFixedRecord [] 0).2.1.2,
   (FixedField_parse_two_encodings units.kWh units.Wh (by decide) (by decide)
      initFixedRecord [] 0).2.2.2⟩

/-- Claim C2: for every FixedField and every input span on which both the
float-form attempt and the integer-form attempt fail, parse returns exactly
the float-form attempt's error result (same error kind and failing
sub-span), regardless of how far the integer-form attempt progressed, and
the record is untouched. -/
theorem FixedField_parse_error_policy (u iu : List Char) (r : FixedRecord) (s : List Char)
    (e3 e0 : ParseError) (h3 : NumParser.parse 3 u s = PResult.fail e3)
    (h0 : NumParser.parse 0 iu s = PResult.fail e0) :
    FixedField.parse u iu r s = (PResult.fail e3, r) :=
  fixedParse_fail u iu r s e3 e0 h3 h0

/-- Witness for claim C2: on "441.879*MWh" with units kWh/Wh both attempts
fail and the float attempt's UnitMismatch error at offset 7 is returned. -/
theorem FixedField_parse_error_policy_witness :
    FixedField.parse units.kWh units.Wh initFixedRecord (String.toList "441.879*MWh") =
      (PResult.fail (ParseError.mk ErrKind.UnitMismatch 7), initFixedRecord) :=
  FixedField_parse_error_policy units.kWh units.Wh initFixedRecord
    (String.toList "441.879*MWh") (ParseError.mk ErrKind.UnitMismatch 7)
    (ParseError.mk ErrKind.InvalidFormat 3) (by decide) (by decide)

/-- A failed FixedField::parse leaves the record unchanged. -/
theorem fixedParse_frame_on_fail (u iu : List Char) (r0 : FixedRecord) (t : List Char)
    (h : (FixedField.parse u iu r0 t).1.isOk = false) :
    (FixedField.parse u iu r0 t).2 = r0 := by
  cases h3 : NumParser.parse 3 u t with
  | ok v n =>
    rw [fixedParse_float u iu r0 t v n h3] at h
    simp [PResult.isOk] at h
  | fail e3 =>
    cases h0 : NumParser.parse 0 iu t with
    | ok v n =>
      rw [fixedParse_int u iu r0 t e3 v n h3 h0] at h
      simp [PResult.isOk] at h
    | fail e0 =>
      rw [fixedParse_fail u iu r0 t e3 e0 h3 h0]

/-- Counterexample to claim C3: on the thirteen-character span
"150117180000W" (a valid timestamp with nothing after it) the parse
returns a failure, yet the timestamp slot has been overwritten: the two
writes are not atomic and a failing call can leave a partial write. -/
theorem TimestampedFixedField_partial_write_cex :
    (TimestampedFixedField.parse units.kWh units.Wh initTFRecord
        (String.toList "150117180000W")).1.isOk = false ∧
    (TimestampedFixedField.parse units.kWh units.Wh initTFRecord
        (String.toList "150117180000W")).2.timestamp ≠ initTFRecord.timestamp := by
  decide

/-- Claim C3 (amended): one parse call writes the numeric value only on
overall success; a timestamp-stage failure writes nothing; but once the
timestamp stage succeeds the timestamp slot is overwritten with the
scanned characters even when the numeric stage then fails, so a failing
call can leave the timestamp freshly written while the numeric value is
untouched. -/
theorem TimestampedFixedField_write_discipline (u iu : List Char) (r : TFRecord)
    (s : List Char) :
    ((TimestampedFixedField.parse u iu r s).1.isOk = false →
      (TimestampedFixedField.parse u iu r s).2.value = r.value)
    ∧ (∀ e : ParseError, StringParser.parse_string 13 13 s = PResult.fail e →
        TimestampedFixedField.parse u iu r s = (PResult.fail e, r))
    ∧ (∀ ts : List Char, ∀ n : Nat, StringParser.parse_string 13 13 s = PResult.ok ts n →
        (TimestampedFixedField.parse u iu r s).2.timestamp = ts) := by
  cases hts : StringParser.parse_string 13 13 s with
  | fail e =>
    refine ⟨?_, ?_, ?_⟩
    · intro h
      simp [TimestampedFixedField.parse, hts]
    · intro e2 he2
      injection he2 with h1
      subst h1
      simp [TimestampedFixedField.parse, hts]
    · intro ts n hok
      exact PResult.noConfusion hok
  | ok ts n =>
    have hred : TimestampedFixedField.parse u iu r s =
        (shiftResult n (FixedField.parse u iu (FixedRecord.mk r.value r.present) (s.drop n)).1,
         TFRecord.mk (FixedField.parse u iu (FixedRecord.mk r.value r.present) (s.drop n)).2.value
           ts (FixedField.parse u iu (FixedRecord.mk r.value r.present) (s.drop n)).2.present) := by
      simp [TimestampedFixedField.parse, hts]
    refine ⟨?_, ?_, ?_⟩
    · intro h
      rw [hred] at h ⊢
      cases hres : (FixedField.parse u iu (FixedRecord.mk r.value r.present) (s.drop n)).1 with
      | ok v m =>
        rw [hres] at h
        simp [shiftResult, PResult.isOk] at h
      | fail e2 =>
        have hframe := fixedParse_frame_on_fail u iu (FixedRecord.mk r.value r.present)
          (s.drop n) (by rw [hres]; rfl)
        simp only [hframe]
    · intro e2 he2
      exact PResult.noConfusion he2
    · intro ts2 n2 hok
      injection hok with h1 h2
      subst h1
      rw [hred]

/-- Witness for claim C3 (amended): on the valid-timestamp span the value
slot is untouched and the timestamp slot holds the scanned characters; on
the short span "abc" the timestamp stage fails and nothing is written. -/
theorem TimestampedFixedField_write_discipline_witness :
    (TimestampedFixedField.parse units.kWh units.Wh initTFRecord
        (String.toList "150117180000W")).2.value = initTFRecord.value
    ∧ (TimestampedFixedField.parse units.kWh units.Wh initTFRecord
        (String.toList "150117180000W")).2.timestamp = String.toList "150117180000W"
    ∧ TimestampedFixedField.parse units.kWh units.Wh initTFRecord (String.toList "abc") =
        (PResult.fail (ParseError.mk ErrKind.InvalidLength 0), initTFRecord) :=
  ⟨(TimestampedFixedField_write_discipline units.kWh units.Wh initTFRecord
      (String.toList "150117180000W")).1 (by decide),
   (TimestampedFixedField_write_discipline units.kWh units.Wh initTFRecord
      (String.toList "150117180000W")).2.2 (String.toList "150117180000W") 13 (by decide),
   (TimestampedFixedField_write_discipline units.kWh units.Wh initTFRecord
      (String.toList "abc")).2.1 (ParseError.mk ErrKind.InvalidLength 0) (by decide)⟩

/-- Claim C4: if the initial thirteen-character timestamp scan fails,
TimestampedFixedField parse returns that sub-stage's error result verbatim
and performs no write at all to the record's storage slot. -/
theorem TimestampedFixedField_ts_failure_shortcircuit (u iu : List Char) (r : TFRecord)
    (s : List Char) (e : ParseError)
    (h : StringParser.parse_string 13 13 s = PResult.fail e) :
    TimestampedFixedField.parse u iu r s = (PResult.fail e, r) := by
  simp [TimestampedFixedField.parse, h]

/-- Witness for claim C4: the three-character span "abc" makes the
timestamp scan fail with InvalidLength, which the composite parse returns
verbatim with the record untouched. -/
theorem TimestampedFixedField_ts_failure_shortcircuit_witness :
    TimestampedFixedField.parse units.kW units.W (TFRecord.mk 7 ['z'] false)
        (String.toList "abc") =
      (PResult.fail (ParseError.mk ErrKind.InvalidLength 0), TFRecord.mk 7 ['z'] false) :=
  TimestampedFixedField_ts_failure_shortcircuit units.kW units.W (TFRecord.mk 7 ['z'] false)
    (String.toList "abc") (ParseError.mk ErrKind.InvalidLength 0) (by decide)

/-- Claim C5: for every StringField with bounds minlen and maxlen, a span
whose length lies within the bounds parses successfully and the stored
value is the span unchanged; a span of length minlen minus one or maxlen
plus one fails with InvalidLength and the stored value is unmodified. -/
theorem StringField_roundtrip_and_bounds (minl maxl : Nat) (r : StrRecord) (s : List Char) :
    (minl ≤ s.length → s.length ≤ maxl →
      StringField.parse minl maxl r s = (PResult.ok () s.length, StrRecord.mk s r.present))
    ∧ (s.length + 1 = minl →
      StringField.parse minl maxl r s = (PResult.fail (ParseError.mk ErrKind.InvalidLength 0), r))
    ∧ (s.length = maxl + 1 →
      StringField.parse minl maxl r s = (PResult.fail (ParseError.mk ErrKind.InvalidLength 0), r)) := by
  refine ⟨?_, ?_, ?_⟩
  · intro h1 h2
    unfold StringField.parse StringParser.parse_string
    rw [if_pos ⟨h1, h2⟩]
  · intro h1
    unfold StringField.parse StringParser.parse_string
    rw [if_neg (by omega)]
  · intro h1
    unfold StringField.parse StringParser.parse_string
    rw [if_neg (by omega)]

/-- Witness for claim C5: with bounds four to four, "abcd" round-trips,
while "abc" and "abcde" fail with InvalidLength leaving the slot alone. -/
theorem StringField_roundtrip_and_bounds_witness :
    StringField.parse 4 4 initStrRecord (String.toList "abcd") =
      (PResult.ok () 4, StrRecord.mk (String.toList "abcd") false)
    ∧ StringField.parse 4 4 initStrRecord (String.toList "abc") =
      (PResult.fail (ParseError.mk ErrKind.InvalidLength 0), initStrRecord)
    ∧ StringField.parse 4 4 initStrRecord (String.toList "abcde") =
      (PResult.fail (ParseError.mk ErrKind.InvalidLength 0), initStrRecord) :=
  ⟨(StringField_roundtrip_and_bounds 4 4 initStrRecord (String.toList "abcd")).1
      (by decide) (by decide),
   (StringField_roundtrip_and_bounds 4 4 initStrRecord (String.toList "abc")).2.1 (by decide),
   (StringField_roundtrip_and_bounds 4 4 initStrRecord (String.toList "abcde")).2.2 (by decide)⟩

/-- Claim C6: for every RawField and every input span, including the empty
span, parse succeeds, the stored value equals the input bytes exactly, the
presence flag is untouched, and the returned cursor sits immediately after
the consumed token at the end of the span. -/
theorem RawField_parse_total (r : StrRecord) (s : List Char) :
    RawField.parse r s = (PResult.ok () s.length, StrRecord.mk s r.present) :=
  rfl

/-- StringField::parse never touches the presence flag. -/
theorem stringParse_present (minl maxl : Nat) (r : StrRecord) (s : List Char) :
    (StringField.parse minl maxl r s).2.present = r.present := by
  unfold StringField.parse
  cases h : StringParser.parse_string minl maxl s with
  | ok str n => rfl
  | fail e => rfl

/-- FixedField::parse never touches the presence flag. -/
theorem fixedParse_present (u iu : List Char) (r : FixedRecord) (s : List Char) :
    (FixedField.parse u iu r s).2.present = r.present := by
  unfold FixedField.parse
  cases h3 : NumParser.parse 3 u s with
  | ok v n => rfl
  | fail e3 =>
    cases h0 : NumParser.parse 0 iu s with
    | ok v n => rfl
    | fail e0 => rfl

/-- Claim C7: the presence flag of every record is initialized to false
before any parse, and none of the six field-type parse operations (String,
Timestamp, Fixed, Timestamped-Fixed, Int, Raw) modifies any presence flag,
whether it succeeds or fails; setting the flag is left to the external
catalog driver. -/
theorem parse_preserves_presence_flags (minl maxl : Nat) (u iu : List Char)
    (r1 r2 : StrRecord) (rf : FixedRecord) (rt : TFRecord) (ri : IntRecord) (s : List Char) :
    (StringField.parse minl maxl r1 s).2.present = r1.present
    ∧ (TimestampField.parse r1 s).2.present = r1.present
    ∧ (FixedField.parse u iu rf s).2.present = rf.present
    ∧ (TimestampedFixedField.parse u iu rt s).2.present = rt.present
    ∧ (IntField.parse u ri s).2.present = ri.present
    ∧ (RawField.parse r2 s).2.present = r2.present
    ∧ initStrRecord.present = false
    ∧ initFixedRecord.present = false
    ∧ initTFRecord.present = false
    ∧ initIntRecord.present = false := by
  refine ⟨stringParse_present minl maxl r1 s, stringParse_present 13 13 r1 s, 
    fixedParse_present u iu rf s, ?_, ?_, rfl, rfl, rfl, rfl, rfl⟩
  · unfold TimestampedFixedField.parse
    cases hts : StringParser.parse_string 13 13 s with
    | fail e => rfl
    | ok ts n =>
      simp only
      exact fixedParse_present u iu (FixedRecord.mk rt.value rt.present) (s.drop n)
  · unfold IntField.parse
    cases h : NumParser.parse 0 u s with
    | ok v n => rfl
    | fail e => rfl

/-- Claim C8: the OBIS ids of the catalog records are pairwise distinct,
and exactly one record, the identification entry, carries the all-255
sentinel id. -/
theorem catalog_ids_nodup_and_unique_sentinel :
    (fieldCatalog.map CatalogEntry.id).Nodup
    ∧ (fieldCatalog.filter (fun e => decide (e.id = ObisId.sentinel))).map CatalogEntry.name =
        ["identification"] := by
  constructor
  · decide
  · decide

/-- Claim C9, evaluated at the failing catalog entry: the frequency record
is bound to the FixedField strategy with a single unit argument Hz, so it
is the one FixedField entry of the catalog that does not bind both a large
and a small unit. -/
theorem frequency_entry_missing_int_unit :
    (fieldCatalog.filter
        (fun e => decide (e.kind = FieldKind.fixedK ∧ e.unitArgs.length ≠ 2))).map
        CatalogEntry.name = ["frequency"]
    ∧ (fieldCatalog.filter (fun e => decide (e.name = "frequency"))).map
        CatalogEntry.unitArgs = [[units.Hz]] := by
  constructor
  · decide
  · decide

/-- Counterexample to claim C10: with prior slot contents "x", parsing the
span "y" leaves exactly "y" in the slot, not the concatenation "xy": under
the spec-modelled storage helper the slot is replaced, not appended to. -/
theorem RawField_append_cex :
    (RawField.parse (StrRecord.mk ['x'] false) ['y']).2.val = ['y'] ∧
    (RawField.parse (StrRecord.mk ['x'] false) ['y']).2.val ≠ ['x', 'y'] := by
  decide

/-- Claim C10 (amended): RawField::parse stores the input bytes into the
record's string slot replacing any prior contents, so the stored value
equals the input bytes exactly regardless of the prior slot state, and
after two successive parse calls on the same record the slot holds the
second token alone. -/
theorem RawField_overwrite_semantics (r : StrRecord) (s1 s2 : List Char) :
    (RawField.parse r s1).2.val = s1
    ∧ (RawField.parse (RawField.parse r s1).2 s2).2.val = s2 :=
  ⟨rfl, rfl⟩
